import Mathlib

/-!
Shallow embedding of the SOPSie decrypted-view lifecycle manager
(VS Code extension, `src/vscode/src`, with the JetBrains port alongside),
together with theorems settling the specification claims about it.

The embedding keeps the source's structure: in-memory registries become
association lists keyed by strings, the file system becomes an explicit
string-keyed map, subprocess and prompt results become explicit parameters,
and each handler is a pure function from its inputs and the relevant state
to the new state plus the externally observable effects.
-/

namespace Sopsie

/-! ## String-keyed maps

Both the in-memory registries (e.g. `TempFileHandler.tempToOriginal`,
a JS `Map<string, string>`) and the modelled on-disk file system are
string-keyed finite maps, embedded as association lists. -/

abbrev SMap := List (String × String)

/-- Lookup in a string-keyed association list (`Map.get` / reading a file). -/
def mapFind : SMap → String → Option String
  | [], _ => none
  | (k', v) :: rest, k => if k' = k then some v else mapFind rest k

/-- JS `Map.delete` / file unlink: removes every binding for `k`. -/
def mapErase : SMap → String → SMap
  | [], _ => []
  | (k', v) :: rest, k =>
      if k' = k then mapErase rest k else (k', v) :: mapErase rest k

/-- JS `Map.set` / overwriting file write: replaces any existing binding. -/
def mapSet (m : SMap) (k v : String) : SMap :=
  (k, v) :: mapErase m k

/-! ## String sets

`FileStateTracker.decryptedFiles` is a JS `Set<string>`; membership, delete
and insert are embedded on lists. -/

def setHas : List String → String → Bool
  | [], _ => false
  | x :: xs, k => if x = k then true else setHas xs k

def setDelete : List String → String → List String
  | [], _ => []
  | x :: xs, k => if x = k then setDelete xs k else x :: setDelete xs k

/-- JS `Set.add`: appends iff the element is not yet present. -/
def setAdd (xs : List String) (k : String) : List String :=
  if setHas xs k then xs else xs ++ [k]

/-! ## Error model

`SopsErrorType` / `SopsError` from `src/vscode/src/types.ts`, and
`SopsRunner.createError` from the runner
(`src/vscode/src/commands/switchToEditInPlaceCommand.ts`, second unit). -/

inductive SopsErrorType
  | CliNotFound
  | ConfigParseError
  | ConfigNotFound
  | DecryptionFailed
  | EncryptionFailed
  | KeyAccessDenied
  | InvalidFile
  | Timeout
  | Unknown
  deriving DecidableEq, Repr

structure SopsError where
  errType : SopsErrorType
  message : String
  details : Option String
  recoverable : Bool
  suggestedAction : Option String
  deriving DecidableEq, Repr

def createError (errType : SopsErrorType) (message : String)
    (details : Option String) (suggestedAction : Option String) : SopsError :=
  { errType := errType
    message := message
    details := details
    recoverable := errType ≠ SopsErrorType.CliNotFound
    suggestedAction := suggestedAction }

/-! ## FileStateTracker (`src/unnamed/part_019`)

The Encryption-State Tracker: the set of uri strings currently marked
decrypted ("decrypted in-place, pending re-encryption on save"). -/

structure FileStateTracker where
  decryptedFiles : List String
  deriving DecidableEq, Repr

def FileStateTracker.markDecrypted (t : FileStateTracker) (uri : String) :
    FileStateTracker :=
  ⟨setAdd t.decryptedFiles uri⟩

def FileStateTracker.markEncrypted (t : FileStateTracker) (uri : String) :
    FileStateTracker :=
  ⟨setDelete t.decryptedFiles uri⟩

def FileStateTracker.isMarkedDecrypted (t : FileStateTracker) (uri : String) : Bool :=
  setHas t.decryptedFiles uri

def FileStateTracker.clearFile (t : FileStateTracker) (uri : String) :
    FileStateTracker :=
  ⟨setDelete t.decryptedFiles uri⟩

/-! ## AutoBehaviorHandler will-save pipeline
(`src/vscode/src/handlers/autoBehaviorHandler.ts`) -/

inductive SaveBehavior
  | autoEncrypt
  | prompt
  | manualEncrypt
  deriving DecidableEq, Repr

/-- The action `handleDocumentWillSave` takes on a will-save event.
`proceedAsIs` is the early-return path (no `waitUntil` registered at all);
`manualNothing` is the `manualEncrypt` case, which also registers nothing
but is reached only after the decrypted-set check. -/
inductive WillSaveDecision
  | proceedAsIs
  | waitUntilAutoEncrypt
  | waitUntilPrompt
  | manualNothing
  deriving DecidableEq, Repr

/-- A text document as the handlers see it: uri scheme, `uri.toString()`
(the FileStateTracker key), and the buffer text. -/
structure Document where
  scheme : String
  uri : String
  text : String
  deriving DecidableEq, Repr

/-- Embeds `AutoBehaviorHandler.handleDocumentWillSave`: which branch runs.
Mirrors the source: non-file schemes return early; documents not marked
decrypted return early; otherwise the configured `saveBehavior` selects
the action. -/
def handleDocumentWillSave (tracker : FileStateTracker) (saveBehavior : SaveBehavior)
    (doc : Document) : WillSaveDecision :=
  if doc.scheme ≠ "file" then .proceedAsIs
  else if !(tracker.isMarkedDecrypted doc.uri) then .proceedAsIs
  else
    match saveBehavior with
    | .autoEncrypt => .waitUntilAutoEncrypt
    | .prompt => .waitUntilPrompt
    | .manualEncrypt => .manualNothing

/-- Result of the external `sopsRunner.encryptContent` call. -/
inductive EncryptOutcome
  | ok (ciphertext : String)
  | err (e : SopsError)
  deriving DecidableEq, Repr

/-- Embeds `AutoBehaviorHandler.autoEncrypt`: the TextEdits resolved to `waitUntil`
(as a full-document replacement, `none` = empty edit list), and the tracker
afterwards. On success the file is marked encrypted; on error the edit list
is empty and state remains decrypted (the file will save unencrypted). -/
def autoEncrypt (tracker : FileStateTracker) (doc : Document)
    (enc : EncryptOutcome) : Option String × FileStateTracker :=
  match enc with
  | .ok encrypted => (some encrypted, tracker.markEncrypted doc.uri)
  | .err _ => (none, tracker)

/-- The user's response to the modal warning in
`AutoBehaviorHandler.promptBeforeSave`. The modal offers exactly two items,
'Encrypt & Save' and 'Save Without Encryption'; dismissing it (the implicit
Cancel) makes `showWarningMessage` resolve to `undefined`. -/
inductive PromptChoice
  | encryptAndSave
  | saveWithoutEncryption
  | dismissed
  deriving DecidableEq, Repr

/-- Embeds `AutoBehaviorHandler.promptBeforeSave`: 'Encrypt & Save' delegates to
`autoEncrypt`; every other outcome (including dismissal) returns the empty
edit list, so the save continues without encryption. -/
def promptBeforeSave (tracker : FileStateTracker) (doc : Document)
    (choice : PromptChoice) (enc : EncryptOutcome) :
    Option String × FileStateTracker :=
  match choice with
  | .encryptAndSave => autoEncrypt tracker doc enc
  | .saveWithoutEncryption => (none, tracker)
  | .dismissed => (none, tracker)

/-- The host side of the will-save protocol: VS Code applies the TextEdits a
handler resolved through `event.waitUntil` to the buffer and then writes the
buffer to the file. Resolving the promise — with or without edits — lets
the save proceed; the `onWillSaveTextDocument` API offers no way to cancel
the save itself. -/
def completeSave (fs : SMap) (path : String) (bufferText : String)
    (edits : Option String) : SMap :=
  mapSet fs path (match edits with | some t => t | none => bufferText)

/-- End-to-end will-save under `saveBehavior = Prompt` for a document the
handler decides to prompt on: the edits the handler contributes, the tracker
afterwards, and the file system after the host completes the save (the file
is keyed by the document's uri string). -/
def willSavePromptRun (tracker : FileStateTracker) (fs : SMap) (doc : Document)
    (choice : PromptChoice) (enc : EncryptOutcome) :
    Option String × FileStateTracker × SMap :=
  let r := promptBeforeSave tracker doc choice enc
  (r.1, r.2, completeSave fs doc.uri doc.text r.1)

/-! ## DocumentWatcher.updateContext (`src/unnamed/part_017`) -/

/-- The `FileEncryptionState` enum from `src/vscode/src/types.ts`. -/
inductive FileEncryptionState
  | Unknown
  | Encrypted
  | Decrypted
  | PlainText
  deriving DecidableEq, Repr

/-- The encryption state `DocumentWatcher.updateContext` computes for a file
uri: `Unknown` without a matching rule; `Decrypted` when the uri is in the
tracker's decrypted-set; otherwise classified from content. The Rule Matcher
(`configManager.hasMatchingRule`) and Content Classifier
(`sopsDetector.isEncrypted`) are external oracles. -/
def updateContextState (hasMatchingRule : String → Bool)
    (contentIsEncrypted : String → Bool) (tracker : FileStateTracker)
    (fileUri : String) : FileEncryptionState :=
  if !hasMatchingRule fileUri then .Unknown
  else if tracker.isMarkedDecrypted fileUri then .Decrypted
  else if contentIsEncrypted fileUri then .Encrypted
  else .PlainText

/-! ## String scanning and Node path helpers (posix form, as used by the
handlers; implemented by structural recursion on the character list) -/

/-- Whether the first character list leads (is an initial run of) the
second. -/
def chunkLeads : List Char → List Char → Bool
  | [], _ => true
  | _ :: _, [] => false
  | p :: ps, c :: cs => if p = c then chunkLeads ps cs else false

/-- Whether `pat` occurs contiguously inside the list. -/
def hasChunk (pat : List Char) : List Char → Bool
  | [] => decide (pat = [])
  | c :: cs => if chunkLeads pat (c :: cs) then true else hasChunk pat cs

/-- JS `String.prototype.includes`. -/
def strIncludes (s pat : String) : Bool :=
  hasChunk pat.data s.data

/-- JS `String.prototype.startsWith`. -/
def strStartsWith (s pre : String) : Bool :=
  chunkLeads pre.data s.data

/-- JS `String.prototype.endsWith` / Node's suffix check in
`path.basename`. -/
def strEndsWith (s post : String) : Bool :=
  chunkLeads post.data.reverse s.data.reverse

/-- Split a character list at every occurrence of `sep`. -/
def splitChar (sep : Char) : List Char → List (List Char)
  | [] => [[]]
  | c :: cs =>
      let rest := splitChar sep cs
      if c = sep then [] :: rest
      else
        match rest with
        | [] => [[c]]
        | r :: rs => (c :: r) :: rs

/-- Join character lists with `sep` between them. -/
def joinChar (sep : Char) : List (List Char) → List Char
  | [] => []
  | [c] => c
  | c :: cs => c ++ sep :: joinChar sep cs

/-- The final component of a posix path (none of the call sites pass paths
with trailing separators). -/
def lastComponent (p : String) : String :=
  match (splitChar '/' p.data).reverse with
  | [] => p
  | c :: _ => String.mk c

/-- Index of the last '.' in a character list, if any. -/
def lastDotIdx (cs : List Char) : Option Nat :=
  (List.range cs.length).foldl
    (fun acc i => if cs.get? i = some '.' then some i else acc) none

/-- Node `path.extname` restricted to a final component: the substring from
the last '.' to the end; empty when there is no '.' or the only '.' leads
the name (dotfiles have no extension). -/
def extOfComponent (c : String) : String :=
  match lastDotIdx c.data with
  | none => ""
  | some 0 => ""
  | some i => String.mk (c.data.drop i)

/-- Node `path.extname`. -/
def extname (p : String) : String :=
  extOfComponent (lastComponent p)

/-- Node `path.basename(p, ext)` restricted to a final component: strips a
trailing `ext` when it matches and is not the whole name. -/
def baseOfComponent (c ext : String) : String :=
  if ext ≠ "" ∧ c ≠ ext ∧ strEndsWith c ext then
    String.mk (c.data.take (c.length - ext.length))
  else c

/-- Node `path.basename(p, ext)`. -/
def basename (p ext : String) : String :=
  baseOfComponent (lastComponent p) ext

/-- Node `path.dirname` (posix, no trailing separator). -/
def dirname (p : String) : String :=
  let parts := splitChar '/' p.data
  if parts.length ≤ 1 then "."
  else
    let d := joinChar '/' parts.dropLast
    if d = [] then "/" else String.mk d

/-! ## TempFileHandler (`src/vscode/src/handlers/tempFileHandler.ts`;
the JetBrains port in `src/unnamed/part_010` uses the same naming scheme
and the same save/close logic) -/

/-- The ephemeral path `TempFileHandler.createTempFile` chooses for
`originalPath`: `path.join(os.tmpdir(), nameWithoutExt + '.sops-edit' + ext)`.
`tmpdir` is the value of `os.tmpdir()`; `path.join` of a clean directory and
a separator-free name is concatenation with '/'. -/
def tempFilePathFor (tmpdir : String) (originalPath : String) : String :=
  let ext := extname originalPath
  let nameWithoutExt := basename originalPath ext
  tmpdir ++ "/" ++ (nameWithoutExt ++ ".sops-edit" ++ ext)

/-- The `TempFileHandler.tempToOriginal` registry: temp path → original path. -/
structure TempFileHandlerState where
  tempToOriginal : SMap
  deriving DecidableEq, Repr

/-- Embeds `TempFileHandler.createTempFile`: writes the decrypted content to the
ephemeral path and installs the temp→original mapping. Returns the new
tracking state, the file system, and the temp path. -/
def createTempFile (st : TempFileHandlerState) (fs : SMap)
    (tmpdir originalPath decryptedContent : String) :
    TempFileHandlerState × SMap × String :=
  let tempPath := tempFilePathFor tmpdir originalPath
  (⟨mapSet st.tempToOriginal tempPath originalPath⟩,
   mapSet fs tempPath decryptedContent,
   tempPath)

/-- Observable outcome of `TempFileHandler.onDocumentSaved`:
which `(content, filePath)` arguments `encryptContent` was called with (if
any), the tracking state and file system afterwards, and which path was
unlinked during the handler (always `none`: save never deletes). -/
structure SaveOutcome where
  encryptCall : Option (String × String)
  st : TempFileHandlerState
  fs : SMap
  unlinked : Option String
  deriving DecidableEq, Repr

/-- Embeds `TempFileHandler.onDocumentSaved`: for a tracked temp path, call
`encryptContent(docText, originalPath)` and, on success, write the returned
ciphertext to the original path; on failure only report the error. The
mapping is untouched and nothing is deleted on either path. `tempPath` is
`doc.uri.fsPath`, `docText` is `doc.getText()`, and `enc` is the outcome of
the single `encryptContent` call. -/
def onDocumentSaved (st : TempFileHandlerState) (fs : SMap)
    (tempPath docText : String) (enc : EncryptOutcome) : SaveOutcome :=
  match mapFind st.tempToOriginal tempPath with
  | none =>
      { encryptCall := none, st := st, fs := fs, unlinked := none }
  | some originalPath =>
      match enc with
      | .ok encrypted =>
          { encryptCall := some (docText, originalPath)
            st := st
            fs := mapSet fs originalPath encrypted
            unlinked := none }
      | .err _ =>
          { encryptCall := some (docText, originalPath)
            st := st
            fs := fs
            unlinked := none }

/-- Embeds `TempFileHandler.onDocumentClosed`: if the closed path is tracked, drop
the mapping and unlink the file; otherwise do nothing. The `Bool` reports
whether the unlink side effect was issued. -/
def onDocumentClosed (st : TempFileHandlerState) (fs : SMap)
    (tempPath : String) : TempFileHandlerState × SMap × Bool :=
  if (mapFind st.tempToOriginal tempPath).isSome then
    (⟨mapErase st.tempToOriginal tempPath⟩, mapErase fs tempPath, true)
  else
    (st, fs, false)

/-! ## Guard/Reentrancy Controller flag

The flag lives on `EditorGroupTracker`, whose implementation is not among
the sources at hand (only its callers are). -/

/-- Modelled from the spec: `EditorGroupTracker`'s manager-triggered-open
flag is missing from the sources; §4.2 of the spec describes
`setExtensionTriggeredOpen` / `isExtensionTriggeredOpen` as a plain
transient per-manager boolean ("manager is currently issuing its own
open/close calls"). -/
structure GuardState where
  extensionTriggeredOpen : Bool
  deriving DecidableEq, Repr

/-- Modelled from the spec: the setter overwrites the boolean flag. -/
def setExtensionTriggeredOpen (_s : GuardState) (b : Bool) : GuardState :=
  ⟨b⟩

/-- Modelled from the spec: the getter reads the boolean flag. -/
def isExtensionTriggeredOpen (s : GuardState) : Bool :=
  s.extensionTriggeredOpen

/-- How a guarded block body exits: normal return or thrown error. -/
inductive BlockResult
  | ok
  | threw
  deriving DecidableEq, Repr

/-- The guarded open/close block shared by `DecryptedViewService.openPreview`
and `openEditInPlace` (`src/unnamed/part_021`) and by the
switch-to-edit-in-place command
(`src/vscode/src/commands/switchToEditInPlaceCommand.ts`):
`setExtensionTriggeredOpen(true); try { body } finally
{ setExtensionTriggeredOpen(false) }`. The body receives the guard state it
executes under and reports whether it returned or threw; none of the bodies
in the source touch the flag themselves, and the `finally` clears it on both
exits. -/
def withExtensionTriggeredOpen (s : GuardState)
    (body : GuardState → BlockResult) : BlockResult × GuardState :=
  let s1 := setExtensionTriggeredOpen s true
  let r := body s1
  (r, setExtensionTriggeredOpen s1 false)

/-! ## DecryptedViewService.switchToFile (`src/unnamed/part_021`) -/

inductive ViewMode
  | preview
  | editInPlace
  deriving DecidableEq, Repr

/-- Embeds `DecryptedViewService.getCurrentMode`: classify the currently tracked
document (`editorGroupTracker.getCurrentTrackedDocument()?.docUri`) by its
uri string — the `sops-decrypted` scheme means preview, a path containing
'.sops-edit' means edit-in-place. -/
def getCurrentMode (trackedDocUri : Option String) : Option ViewMode :=
  match trackedDocUri with
  | none => none
  | some docUri =>
      if strStartsWith docUri "sops-decrypted://" then some .preview
      else if strIncludes docUri ".sops-edit" then some .editInPlace
      else none

/-- The user's response to the unsaved-changes warning in `switchToFile`
('Save' / 'Discard' / 'Cancel'; dismissal resolves to `undefined`). -/
inductive SwitchChoice
  | save
  | discard
  | cancel
  | dismissed
  deriving DecidableEq, Repr

/-- The state-changing operations `switchToFile` can perform, in order. -/
inductive SwitchEffect
  | saveTempDoc
  | closeAllTracked
  | openDecryptedView (uri : String)
  | focusSource (uri : String)
  deriving DecidableEq, Repr

/-- Embeds `DecryptedViewService.switchToFile`: the sequence of state-changing
operations performed, given the tracked document's uri (if any), whether the
edit-in-place temp document was found and is dirty (`tempDoc?.isDirty`), and
the user's choice if the unsaved-changes prompt is shown. An empty list
means the call returned without touching anything. -/
def switchToFile (trackedDocUri : Option String) (tempDocDirty : Option Bool)
    (choice : SwitchChoice) (newSourceUri : String) : List SwitchEffect :=
  match getCurrentMode trackedDocUri with
  | none => [.openDecryptedView newSourceUri]
  | some mode =>
      let gate : Option (List SwitchEffect) :=
        if mode = .editInPlace ∧ tempDocDirty = some true then
          match choice with
          | .cancel => none
          | .dismissed => none
          | .save => some [.saveTempDoc]
          | .discard => some []
        else some []
      match gate with
      | none => []
      | some pre =>
          pre ++ [.closeAllTracked, .openDecryptedView newSourceUri,
                  .focusSource newSourceUri]

/-! ## SopsRunner (`src/vscode/src/commands/switchToEditInPlaceCommand.ts`,
second compilation unit of that file) -/

/-- Settlement of the promise returned by `SopsRunner.runCommand`. -/
inductive CmdResult
  | resolved (stdout : String)
  | rejected (e : SopsError)
  deriving DecidableEq, Repr

/-- Rendering of `${code}` in the JS template for a `number | null` exit code. -/
def codeToString : Option Int → String
  | none => "null"
  | some n => toString n

/-- Embeds `SopsRunner.parseError`: classify a non-zero exit from stderr. -/
def parseError (stderr : String) (code : Option Int) : SopsError :=
  let lowerStderr := stderr.toLower
  if strIncludes lowerStderr "could not decrypt"
      || strIncludes lowerStderr "failed to get the data key"
      || strIncludes lowerStderr "cannot find key" then
    createError .KeyAccessDenied "Unable to decrypt file - key access denied"
      (some stderr) (some "Check your encryption key configuration (age, GPG, KMS, etc.)")
  else if strIncludes lowerStderr "config file not found"
      || strIncludes lowerStderr ".sops.yaml" then
    createError .ConfigNotFound "No .sops.yaml configuration found"
      (some stderr) (some "Create a .sops.yaml file in your workspace root")
  else if strIncludes lowerStderr "error parsing"
      || strIncludes lowerStderr "yaml:" then
    createError .InvalidFile "Invalid file format"
      (some stderr) (some "Ensure the file is valid YAML/JSON")
  else if strIncludes stderr "encrypt" then
    createError .EncryptionFailed "Encryption failed" (some stderr) none
  else if strIncludes stderr "decrypt" then
    createError .DecryptionFailed "Decryption failed" (some stderr) none
  else
    createError .Unknown ("SOPS failed with code " ++ codeToString code)
      (some stderr) none

/-- The event that settles the subprocess, when it fires on its own. -/
inductive ProcEvent
  | close (code : Option Int) (stderr : String)
  | spawnFail (enoent : Bool) (msg : String)
  deriving DecidableEq, Repr

/-- Behavior of the spawned subprocess: when (if ever) its settling event
fires, and whether it exits upon receiving SIGTERM. -/
structure ProcBehavior where
  event : Option (Nat × ProcEvent)
  exitsOnSigterm : Bool
  deriving DecidableEq, Repr

/-- Observable outcome of one `SopsRunner.runCommand` call: the promise
settlement, which kill signals were actually delivered, and whether the
subprocess is still running once the 1000 ms grace period has passed. -/
structure RunOutcome where
  result : CmdResult
  sigterm : Bool
  sigkill : Bool
  runningAfterGrace : Bool
  deriving DecidableEq, Repr

/-- The timer branch of `runCommand`: reject with the `Timeout` error and run
`killProcess()`. Per Node's documented `ChildProcess.killed` semantics,
`killed` becomes true as soon as `kill('SIGTERM')` successfully delivers the
signal — the process, having produced no close event yet, is still running,
so delivery succeeds — and it does not indicate that the process exited.
The grace-period callback `if (!proc.killed) proc.kill('SIGKILL')` therefore
finds `killed` already true and never sends SIGKILL. The process remains
running past the grace period exactly when it neither settles on its own nor
exits on SIGTERM. -/
def runCommandTimedOut (timeout : Nat) (b : ProcBehavior) : RunOutcome :=
  { result := .rejected (createError .Timeout
      ("Operation timed out after " ++ toString timeout ++ "ms") none none)
    sigterm := true
    sigkill := false
    runningAfterGrace := decide (b.event = none) && !b.exitsOnSigterm }

/-- Embeds `SopsRunner.runCommand` for command `cmd` with timeout `timeout`:
if the subprocess settles before the timer fires, the promise settles from
that event (exit code 0 resolves the accumulated stdout, a non-zero code
rejects with `parseError`, a spawn error rejects with `CliNotFound` /
`Unknown` — no signal reaches a process that failed to spawn); otherwise the
timer branch runs. -/
def runCommand (cmd : String) (timeout : Nat) (stdoutAcc : String)
    (b : ProcBehavior) : RunOutcome :=
  match b.event with
  | some (t, ev) =>
      if t < timeout then
        match ev with
        | .close code stderr =>
            if code = some 0 then
              { result := .resolved stdoutAcc, sigterm := false,
                sigkill := false, runningAfterGrace := false }
            else
              { result := .rejected (parseError stderr code), sigterm := false,
                sigkill := false, runningAfterGrace := false }
        | .spawnFail enoent msg =>
            { result := .rejected (if enoent then
                createError .CliNotFound
                  ("SOPS CLI not found at \x22" ++ cmd ++ "\x22")
                  none (some "Install SOPS or update the sopsPath setting")
              else
                createError .Unknown ("Failed to run SOPS: " ++ msg) none none)
              sigterm := false, sigkill := false, runningAfterGrace := false }
      else runCommandTimedOut timeout b
  | none => runCommandTimedOut timeout b

/-- The scratch-file name `SopsRunner.encryptContent` uses:
`.sopsie-temp-${Date.now()}-${Math.random().toString(36).slice(2)}${ext}`. -/
def scratchFileName (now : Nat) (rand : String) (ext : String) : String :=
  ".sopsie-temp-" ++ toString now ++ "-" ++ rand ++ ext

/-- The full scratch path: in the directory of `filePath`. -/
def scratchPathFor (filePath : String) (now : Nat) (rand : String) : String :=
  dirname filePath ++ "/" ++ scratchFileName now rand (extname filePath)

/-- Embeds `SopsRunner.encryptContent`: write `content` to the scratch file beside
`filePath`, run `sops --encrypt` on it, and in a `finally` block unlink the
scratch file before the promise settles, on the success and the failure path
alike. `runSops` is the oracle for the subprocess result given the scratch
path and its content; the model file system is reliable, so the
`existsSync`/`unlinkSync` pair in the finally block removes the file
whenever it exists. -/
def encryptContent (fs : SMap) (content filePath : String) (now : Nat)
    (rand : String) (runSops : String → String → CmdResult) :
    CmdResult × SMap :=
  let tempFilePath := scratchPathFor filePath now rand
  let fs1 := mapSet fs tempFilePath content
  let result := runSops tempFilePath content
  let fs2 := mapErase fs1 tempFilePath
  (result, fs2)

/-! ## DecryptedViewService.openEditInPlace (`src/unnamed/part_021`) -/

/-- Outcome of the decrypt / temp-file-creation prefix of
`openEditInPlace` (the subsequent guarded editor open is modelled by
`withExtensionTriggeredOpen`). -/
structure OpenEditOutcome where
  errorSurfaced : Option SopsError
  st : TempFileHandlerState
  fs : SMap
  tempCreated : Option String
  deriving DecidableEq, Repr

/-- Embeds `DecryptedViewService.openEditInPlace`: the decrypt call is awaited
first; a rejection propagates out of the `withProgress` wrapper immediately,
so `createTempFile` never runs and nothing is tracked. On success the
ephemeral file is created and tracked. -/
def openEditInPlace (st : TempFileHandlerState) (fs : SMap)
    (tmpdir sourcePath : String) (decryptResult : CmdResult) :
    OpenEditOutcome :=
  match decryptResult with
  | .rejected e =>
      { errorSurfaced := some e, st := st, fs := fs, tempCreated := none }
  | .resolved decrypted =>
      let r := createTempFile st fs tmpdir sourcePath decrypted
      { errorSurfaced := none, st := r.1, fs := r.2.1, tempCreated := some r.2.2 }

/-! ## Supporting lemmas on the map and set embeddings -/

theorem mapFind_mapErase_same (m : SMap) (k : String) :
    mapFind (mapErase m k) k = none := by
  induction m with
  | nil => rfl
  | cons hd tl ih =>
    obtain ⟨k', v⟩ := hd
    by_cases h : k' = k
    · simpa [mapErase, h] using ih
    · simpa [mapErase, mapFind, h] using ih

theorem mapFind_mapErase_other (m : SMap) (k q : String) (h : q ≠ k) :
    mapFind (mapErase m k) q = mapFind m q := by
  induction m with
  | nil => rfl
  | cons hd tl ih =>
    obtain ⟨k', v⟩ := hd
    simp only [mapErase, mapFind]
    by_cases hk : k' = k
    · rw [if_pos hk, ih, if_neg (show ¬ k' = q from fun e => h (e ▸ hk))]
    · rw [if_neg hk]
      simp only [mapFind]
      by_cases hq : k' = q
      · rw [if_pos hq, if_pos hq]
      · rw [if_neg hq, if_neg hq, ih]

theorem mapFind_mapSet_same (m : SMap) (k v : String) :
    mapFind (mapSet m k v) k = some v := by
  simp [mapSet, mapFind]

theorem mapFind_mapSet_other (m : SMap) (k v q : String) (h : q ≠ k) :
    mapFind (mapSet m k v) q = mapFind m q := by
  have hk : k ≠ q := fun e => h e.symm
  simp only [mapSet, mapFind, hk, if_false]
  exact mapFind_mapErase_other m k q h

theorem setHas_setDelete_same (xs : List String) (k : String) :
    setHas (setDelete xs k) k = false := by
  induction xs with
  | nil => rfl
  | cons x tl ih =>
    by_cases h : x = k
    · simpa [setDelete, h] using ih
    · simpa [setDelete, setHas, h] using ih

theorem setHas_setDelete_other (xs : List String) (k q : String) (h : q ≠ k) :
    setHas (setDelete xs k) q = setHas xs q := by
  induction xs with
  | nil => rfl
  | cons x tl ih =>
    simp only [setDelete, setHas]
    by_cases hk : x = k
    · rw [if_pos hk, ih, if_neg (show ¬ x = q from fun e => h (e ▸ hk))]
    · rw [if_neg hk]
      simp only [setHas]
      by_cases hq : x = q
      · rw [if_pos hq, if_pos hq]
      · rw [if_neg hq, if_neg hq, ih]

/-! ## Claim theorems -/

/-- C4: while a manager-triggered open/close block is executing, the
extension-triggered-open guard flag reads true — the body runs in the state
produced by `setExtensionTriggeredOpen(true)` — and immediately after the
block exits the flag reads false; the `finally`-shaped clear applies to
every body, so to the normal-return and the thrown-error exit alike. -/
theorem claim_C4_guard_flag_scoped (s : GuardState)
    (body : GuardState → BlockResult) :
    (withExtensionTriggeredOpen s body).1 = body (setExtensionTriggeredOpen s true) ∧
    isExtensionTriggeredOpen (setExtensionTriggeredOpen s true) = true ∧
    isExtensionTriggeredOpen (withExtensionTriggeredOpen s body).2 = false :=
  ⟨rfl, rfl, rfl⟩

/-- C6: closing is idempotent — the first close of a tracked ephemeral path
removes the mapping, and a second close notification for the same path finds
no tracked entry and does nothing: no second unlink, no state change, no
file-system change. -/
theorem claim_C6_close_idempotent (st : TempFileHandlerState) (fs : SMap)
    (tempPath : String) :
    mapFind (onDocumentClosed st fs tempPath).1.tempToOriginal tempPath = none ∧
    (onDocumentClosed (onDocumentClosed st fs tempPath).1
        (onDocumentClosed st fs tempPath).2.1 tempPath).2.2 = false ∧
    (onDocumentClosed (onDocumentClosed st fs tempPath).1
        (onDocumentClosed st fs tempPath).2.1 tempPath).1 =
      (onDocumentClosed st fs tempPath).1 ∧
    (onDocumentClosed (onDocumentClosed st fs tempPath).1
        (onDocumentClosed st fs tempPath).2.1 tempPath).2.1 =
      (onDocumentClosed st fs tempPath).2.1 := by
  by_cases h : (mapFind st.tempToOriginal tempPath).isSome
  · unfold onDocumentClosed
    simp [h, mapFind_mapErase_same]
  · have hnone : mapFind st.tempToOriginal tempPath = none :=
      Option.not_isSome_iff_eq_none.mp h
    unfold onDocumentClosed
    simp [hnone]

/-- C7: the will-save decision is proceed-as-is — no encryption, no prompt,
no `waitUntil` — for every document whose uri is not in the decrypted-set;
only for uris in the decrypted-set does the handler map the configured
`saveBehavior` to auto-encrypt, prompt, or manual do-nothing. -/
theorem claim_C7_will_save_gated_on_decrypted_set (tracker : FileStateTracker)
    (sb : SaveBehavior) (doc : Document) :
    (tracker.isMarkedDecrypted doc.uri = false →
        handleDocumentWillSave tracker sb doc = .proceedAsIs) ∧
    (handleDocumentWillSave tracker sb doc ≠ .proceedAsIs →
        tracker.isMarkedDecrypted doc.uri = true) ∧
    (doc.scheme = "file" → tracker.isMarkedDecrypted doc.uri = true →
        handleDocumentWillSave tracker sb doc =
          match sb with
          | .autoEncrypt => .waitUntilAutoEncrypt
          | .prompt => .waitUntilPrompt
          | .manualEncrypt => .manualNothing) := by
  by_cases hs : doc.scheme = "file"
  · by_cases hm : tracker.isMarkedDecrypted doc.uri = true
    · refine ⟨fun hnot => ?_, fun _ => hm, fun _ _ => ?_⟩
      · rw [hm] at hnot; exact absurd hnot (by simp)
      · simp [handleDocumentWillSave, hs, hm]
    · have hm' : tracker.isMarkedDecrypted doc.uri = false := by
        simpa using hm
      refine ⟨fun _ => ?_, fun hne => ?_, fun _ h => absurd h hm⟩
      · simp [handleDocumentWillSave, hs, hm']
      · exact absurd (by simp [handleDocumentWillSave, hs, hm']) hne
  · refine ⟨fun _ => ?_, fun hne => ?_, fun h _ => absurd h hs⟩
    · simp [handleDocumentWillSave, hs]
    · exact absurd (by simp [handleDocumentWillSave, hs]) hne

/-- Witness for C7: a file-scheme document outside the decrypted-set saves
as-is; one inside it, under the prompt behavior, gets the prompt action. -/
theorem claim_C7_witness :
    handleDocumentWillSave ⟨[]⟩ .autoEncrypt ⟨"file", "file:///w/s.yaml", ""⟩ =
      .proceedAsIs ∧
    handleDocumentWillSave ⟨["file:///w/s.yaml"]⟩ .prompt
      ⟨"file", "file:///w/s.yaml", ""⟩ = .waitUntilPrompt :=
  ⟨(claim_C7_will_save_gated_on_decrypted_set ⟨[]⟩ .autoEncrypt
      ⟨"file", "file:///w/s.yaml", ""⟩).1 (by decide),
   (claim_C7_will_save_gated_on_decrypted_set ⟨["file:///w/s.yaml"]⟩ .prompt
      ⟨"file", "file:///w/s.yaml", ""⟩).2.2 rfl (by decide)⟩

/-- C1 counterexample: `saveBehavior = Prompt`, a file-scheme document
marked decrypted, disk holding ciphertext, buffer holding plaintext; the
handler decides to prompt, the user dismisses the prompt (the Cancel
outcome), and the save is not aborted — the source file's content on disk
becomes the buffer's plaintext instead of staying unchanged. -/
theorem claim_C1_counterexample :
    handleDocumentWillSave ⟨["file:///w/s.yaml"]⟩ .prompt
      ⟨"file", "file:///w/s.yaml", "plain: 1"⟩ = .waitUntilPrompt ∧
    mapFind (willSavePromptRun ⟨["file:///w/s.yaml"]⟩
        [("file:///w/s.yaml", "CIPHER")] ⟨"file", "file:///w/s.yaml", "plain: 1"⟩
        .dismissed (.ok "unused")).2.2 "file:///w/s.yaml" = some "plain: 1" ∧
    mapFind (willSavePromptRun ⟨["file:///w/s.yaml"]⟩
        [("file:///w/s.yaml", "CIPHER")] ⟨"file", "file:///w/s.yaml", "plain: 1"⟩
        .dismissed (.ok "unused")).2.2 "file:///w/s.yaml" ≠
      mapFind [("file:///w/s.yaml", "CIPHER")] "file:///w/s.yaml" := by
  decide

/-- C1 (amended): when `saveBehavior` is Prompt and the document being saved
is in the decrypted-set, the will-save handler shows the modal prompt
('Encrypt & Save' / 'Save Without Encryption'); if the user dismisses it
without picking either option, the handler contributes no edits and the
underlying save proceeds, persisting the buffer text to the file unencrypted
— while the decrypted-set membership is indeed unchanged. -/
theorem claim_C1_amended_dismiss_saves_unencrypted (tracker : FileStateTracker)
    (fs : SMap) (doc : Document) (enc : EncryptOutcome)
    (hscheme : doc.scheme = "file")
    (hmark : tracker.isMarkedDecrypted doc.uri = true) :
    handleDocumentWillSave tracker .prompt doc = .waitUntilPrompt ∧
    (willSavePromptRun tracker fs doc .dismissed enc).1 = none ∧
    (willSavePromptRun tracker fs doc .dismissed enc).2.1 = tracker ∧
    mapFind (willSavePromptRun tracker fs doc .dismissed enc).2.2 doc.uri =
      some doc.text := by
  refine ⟨?_, rfl, rfl, ?_⟩
  · simp [handleDocumentWillSave, hscheme, hmark]
  · exact mapFind_mapSet_same _ _ _

/-- Witness for the amended C1 at a concrete decrypted document: dismissal
leaves the tracker as-is and the saved file holds the plaintext buffer. -/
theorem claim_C1_amended_witness :
    handleDocumentWillSave ⟨["file:///w/s.yaml"]⟩ .prompt
      ⟨"file", "file:///w/s.yaml", "plain: 1"⟩ = .waitUntilPrompt ∧
    (willSavePromptRun ⟨["file:///w/s.yaml"]⟩ [("file:///w/s.yaml", "CIPHER")]
        ⟨"file", "file:///w/s.yaml", "plain: 1"⟩ .dismissed (.ok "unused")).2.1 =
      ⟨["file:///w/s.yaml"]⟩ ∧
    mapFind (willSavePromptRun ⟨["file:///w/s.yaml"]⟩
        [("file:///w/s.yaml", "CIPHER")] ⟨"file", "file:///w/s.yaml", "plain: 1"⟩
        .dismissed (.ok "unused")).2.2 "file:///w/s.yaml" = some "plain: 1" :=
  ⟨(claim_C1_amended_dismiss_saves_unencrypted ⟨["file:///w/s.yaml"]⟩
      [("file:///w/s.yaml", "CIPHER")] ⟨"file", "file:///w/s.yaml", "plain: 1"⟩
      (.ok "unused") rfl (by decide)).1,
   (claim_C1_amended_dismiss_saves_unencrypted ⟨["file:///w/s.yaml"]⟩
      [("file:///w/s.yaml", "CIPHER")] ⟨"file", "file:///w/s.yaml", "plain: 1"⟩
      (.ok "unused") rfl (by decide)).2.2.1,
   (claim_C1_amended_dismiss_saves_unencrypted ⟨["file:///w/s.yaml"]⟩
      [("file:///w/s.yaml", "CIPHER")] ⟨"file", "file:///w/s.yaml", "plain: 1"⟩
      (.ok "unused") rfl (by decide)).2.2.2⟩

/-- C3 counterexample: two distinct sources with the same base name are
assigned the very same ephemeral path — the name carries no uniqueness
suffix, so distinct sources can collide. -/
theorem claim_C3_counterexample :
    ("/alpha/secrets.yaml" : String) ≠ "/beta/secrets.yaml" ∧
    tempFilePathFor "/tmp" "/alpha/secrets.yaml" =
      tempFilePathFor "/tmp" "/beta/secrets.yaml" := by
  decide

/-- C3 (amended): the ephemeral file is placed in the platform temp
directory and named deterministically from the source's final path
component alone — base name, the '.sops-edit' kind marker, and the original
extension, with no uniqueness suffix — so any two sources sharing a final
component (and likewise two successive opens of the same source) are
assigned the same ephemeral path rather than guaranteed-distinct ones. -/
theorem claim_C3_amended_path_from_basename_only (tmpdir a b : String)
    (h : lastComponent a = lastComponent b) :
    tempFilePathFor tmpdir a =
      tmpdir ++ "/" ++ (basename a (extname a) ++ ".sops-edit" ++ extname a) ∧
    tempFilePathFor tmpdir a = tempFilePathFor tmpdir b := by
  refine ⟨rfl, ?_⟩
  unfold tempFilePathFor extname basename
  rw [h]

/-- Witness for the amended C3: `/alpha/secrets.yaml` and
`/beta/secrets.yaml` share a base name and collide on the ephemeral path. -/
theorem claim_C3_amended_witness :
    lastComponent "/alpha/secrets.yaml" = lastComponent "/beta/secrets.yaml" ∧
    tempFilePathFor "/tmp" "/alpha/secrets.yaml" =
      tempFilePathFor "/tmp" "/beta/secrets.yaml" :=
  ⟨rfl, (claim_C3_amended_path_from_basename_only "/tmp" "/alpha/secrets.yaml"
      "/beta/secrets.yaml" rfl).2⟩

/-- C5: saving a tracked writable ephemeral document invokes
`encryptContent` with the ephemeral buffer's text and the source path; on
success the returned ciphertext is written to the source path while the
ephemeral path's on-disk content is untouched; the tracking entry survives
and nothing is unlinked, on the success and the failure path alike — the
ephemeral file is deleted only by the close handler, which still fires for
this path afterwards. -/
theorem claim_C5_save_encrypts_to_source (st : TempFileHandlerState) (fs : SMap)
    (tempPath docText orig cipher : String) (e : SopsError)
    (htrack : mapFind st.tempToOriginal tempPath = some orig)
    (hne : tempPath ≠ orig) :
    (onDocumentSaved st fs tempPath docText (.ok cipher)).encryptCall =
      some (docText, orig) ∧
    mapFind (onDocumentSaved st fs tempPath docText (.ok cipher)).fs orig =
      some cipher ∧
    mapFind (onDocumentSaved st fs tempPath docText (.ok cipher)).fs tempPath =
      mapFind fs tempPath ∧
    (onDocumentSaved st fs tempPath docText (.ok cipher)).st = st ∧
    (onDocumentSaved st fs tempPath docText (.ok cipher)).unlinked = none ∧
    (onDocumentSaved st fs tempPath docText (.err e)).fs = fs ∧
    (onDocumentSaved st fs tempPath docText (.err e)).st = st ∧
    (onDocumentSaved st fs tempPath docText (.err e)).unlinked = none ∧
    (onDocumentClosed (onDocumentSaved st fs tempPath docText (.ok cipher)).st
        (onDocumentSaved st fs tempPath docText (.ok cipher)).fs tempPath).2.2 =
      true := by
  unfold onDocumentSaved
  rw [htrack]
  refine ⟨rfl, mapFind_mapSet_same _ _ _, mapFind_mapSet_other _ _ _ _ hne,
    rfl, rfl, rfl, rfl, rfl, ?_⟩
  simp [onDocumentClosed, htrack]

/-- Witness for C5 at a concrete tracked temp file. -/
theorem claim_C5_witness :
    (onDocumentSaved ⟨[("/tmp/s.sops-edit.yaml", "/w/s.yaml")]⟩
        [("/w/s.yaml", "OLD")] "/tmp/s.sops-edit.yaml" "newplain"
        (.ok "NEWCIPHER")).encryptCall = some ("newplain", "/w/s.yaml") ∧
    mapFind (onDocumentSaved ⟨[("/tmp/s.sops-edit.yaml", "/w/s.yaml")]⟩
        [("/w/s.yaml", "OLD")] "/tmp/s.sops-edit.yaml" "newplain"
        (.ok "NEWCIPHER")).fs "/w/s.yaml" = some "NEWCIPHER" :=
  ⟨(claim_C5_save_encrypts_to_source ⟨[("/tmp/s.sops-edit.yaml", "/w/s.yaml")]⟩
      [("/w/s.yaml", "OLD")] "/tmp/s.sops-edit.yaml" "newplain" "/w/s.yaml"
      "NEWCIPHER" (createError .Unknown "x" none none) (by decide) (by decide)).1,
   (claim_C5_save_encrypts_to_source ⟨[("/tmp/s.sops-edit.yaml", "/w/s.yaml")]⟩
      [("/w/s.yaml", "OLD")] "/tmp/s.sops-edit.yaml" "newplain" "/w/s.yaml"
      "NEWCIPHER" (createError .Unknown "x" none none) (by decide) (by decide)).2.1⟩

/-- C8: the computed state is `Decrypted` exactly for uris with a matching
rule that sit in the tracker's decrypted-set; after removal from the set
(`markEncrypted` or `clearFile`) the next query is never `Decrypted`, and
with the rule still matching it re-classifies from content as `Encrypted`
or `PlainText`. -/
theorem claim_C8_decrypted_iff_tracked (rules isEnc : String → Bool)
    (tracker : FileStateTracker) (uri : String) :
    (updateContextState rules isEnc tracker uri = .Decrypted ↔
        rules uri = true ∧ tracker.isMarkedDecrypted uri = true) ∧
    updateContextState rules isEnc (tracker.markEncrypted uri) uri ≠ .Decrypted ∧
    updateContextState rules isEnc (tracker.clearFile uri) uri ≠ .Decrypted ∧
    (rules uri = true →
        updateContextState rules isEnc (tracker.markEncrypted uri) uri =
          if isEnc uri then .Encrypted else .PlainText) := by
  have hdel : (tracker.markEncrypted uri).isMarkedDecrypted uri = false :=
    setHas_setDelete_same _ _
  have hdel2 : (tracker.clearFile uri).isMarkedDecrypted uri = false :=
    setHas_setDelete_same _ _
  refine ⟨⟨fun h => ?_, fun ⟨hr, hm⟩ => ?_⟩, fun h => ?_, fun h => ?_, fun hr => ?_⟩
  · by_cases hr : rules uri = true
    · refine ⟨hr, ?_⟩
      by_cases hm : tracker.isMarkedDecrypted uri = true
      · exact hm
      · have hm' : tracker.isMarkedDecrypted uri = false := by simpa using hm
        by_cases he : isEnc uri = true <;>
          simp [updateContextState, hr, hm', he] at h
    · have hr' : rules uri = false := by simpa using hr
      simp [updateContextState, hr'] at h
  · simp [updateContextState, hr, hm]
  · by_cases hr : rules uri = true
    · by_cases he : isEnc uri = true <;>
        simp [updateContextState, hr, hdel, he] at h
    · have hr' : rules uri = false := by simpa using hr
      simp [updateContextState, hr'] at h
  · by_cases hr : rules uri = true
    · by_cases he : isEnc uri = true <;>
        simp [updateContextState, hr, hdel2, he] at h
    · have hr' : rules uri = false := by simpa using hr
      simp [updateContextState, hr'] at h
  · by_cases he : isEnc uri = true
    · simp [updateContextState, hr, hdel, he]
    · have he' : isEnc uri = false := by simpa using he
      simp [updateContextState, hr, hdel, he']

/-- Witness for C8: a tracked uri reads `Decrypted`; after `markEncrypted`
the same uri, whose content still classifies as encrypted, reads
`Encrypted`. -/
theorem claim_C8_witness :
    updateContextState (fun _ => true) (fun _ => true) ⟨["u"]⟩ "u" =
      .Decrypted ∧
    updateContextState (fun _ => true) (fun _ => true)
      (FileStateTracker.markEncrypted ⟨["u"]⟩ "u") "u" = .Encrypted :=
  ⟨(claim_C8_decrypted_iff_tracked (fun _ => true) (fun _ => true)
      ⟨["u"]⟩ "u").1.mpr ⟨rfl, by decide⟩,
   (claim_C8_decrypted_iff_tracked (fun _ => true) (fun _ => true)
      ⟨["u"]⟩ "u").2.2.2 rfl⟩

/-- C9: if `switchToFile` runs while an edit-in-place session exists whose
buffer is dirty, choosing Cancel — or dismissing the Save/Discard/Cancel
prompt — makes the call a no-op: it performs no save, closes nothing,
opens no new view and changes no focus, leaving session, ephemeral file and
tracked state untouched. -/
theorem claim_C9_cancel_is_noop (trackedDocUri : Option String)
    (dirty : Option Bool) (choice : SwitchChoice) (newSourceUri : String)
    (hmode : getCurrentMode trackedDocUri = some .editInPlace)
    (hdirty : dirty = some true)
    (hc : choice = .cancel ∨ choice = .dismissed) :
    switchToFile trackedDocUri dirty choice newSourceUri = [] := by
  unfold switchToFile
  rw [hmode]
  rcases hc with h | h <;> subst h <;> simp [hdirty]

/-- Witness for C9: cancelling the prompt over a dirty edit-in-place temp
file performs no effect at all. -/
theorem claim_C9_witness :
    switchToFile (some "/tmp/s.sops-edit.yaml") (some true) .cancel
      "/w/other.yaml" = [] :=
  claim_C9_cancel_is_noop (some "/tmp/s.sops-edit.yaml") (some true) .cancel
    "/w/other.yaml" (by decide) rfl (Or.inl rfl)

/-- C10: `encryptContent` always removes its scratch file before settling:
whatever the sops invocation returns, the scratch path is absent from the
resulting file system, every other path is untouched, and the settlement is
exactly the sops result on the scratch file — so no plaintext scratch file
persists beside the source on either the success or the failure path. -/
theorem claim_C10_scratch_always_cleaned (fs : SMap)
    (content filePath : String) (now : Nat) (rand : String)
    (runSops : String → String → CmdResult) :
    mapFind (encryptContent fs content filePath now rand runSops).2
        (scratchPathFor filePath now rand) = none ∧
    (∀ p, p ≠ scratchPathFor filePath now rand →
        mapFind (encryptContent fs content filePath now rand runSops).2 p =
          mapFind fs p) ∧
    (encryptContent fs content filePath now rand runSops).1 =
      runSops (scratchPathFor filePath now rand) content := by
  refine ⟨mapFind_mapErase_same _ _, fun p hp => ?_, rfl⟩
  show mapFind (mapErase (mapSet fs (scratchPathFor filePath now rand) content)
      (scratchPathFor filePath now rand)) p = mapFind fs p
  rw [mapFind_mapErase_other _ _ _ hp, mapFind_mapSet_other _ _ _ _ hp]

/-- Witness for C10: after encrypting beside `/w/s.yaml`, the scratch file
is gone and the source file's content is untouched. -/
theorem claim_C10_witness :
    mapFind (encryptContent [("/w/s.yaml", "OLD")] "plain" "/w/s.yaml" 5 "r"
        (fun _ _ => .resolved "ENC")).2 (scratchPathFor "/w/s.yaml" 5 "r") =
      none ∧
    mapFind (encryptContent [("/w/s.yaml", "OLD")] "plain" "/w/s.yaml" 5 "r"
        (fun _ _ => .resolved "ENC")).2 "/w/s.yaml" = some "OLD" :=
  ⟨(claim_C10_scratch_always_cleaned [("/w/s.yaml", "OLD")] "plain" "/w/s.yaml"
      5 "r" (fun _ _ => .resolved "ENC")).1,
   ((claim_C10_scratch_always_cleaned [("/w/s.yaml", "OLD")] "plain" "/w/s.yaml"
      5 "r" (fun _ _ => .resolved "ENC")).2.1 "/w/s.yaml" (by decide)).trans
     (by decide)⟩

/-- C2 (code defect, evaluated at the failing input): with a 30000 ms
timeout and a subprocess that never settles and ignores SIGTERM,
`runCommand` rejects with the `Timeout` error and delivers SIGTERM — but
the grace-period force-kill never fires, because `proc.killed` is already
true once SIGTERM was delivered, so no SIGKILL is sent and the subprocess
is still running after the grace period, contrary to the claimed
SIGTERM-then-SIGKILL termination. The timed-out decrypt in
`openEditInPlace` does surface the `Timeout` error, creates no temp file
and registers no session. -/
theorem claim_C2_timeout_rejects_but_never_sigkills :
    (runCommand "sops" 30000 "" ⟨none, false⟩).result =
      .rejected (createError .Timeout "Operation timed out after 30000ms"
        none none) ∧
    (runCommand "sops" 30000 "" ⟨none, false⟩).sigterm = true ∧
    (runCommand "sops" 30000 "" ⟨none, false⟩).sigkill = false ∧
    (runCommand "sops" 30000 "" ⟨none, false⟩).runningAfterGrace = true ∧
    (openEditInPlace ⟨[]⟩ [] "/tmp" "/w/secrets.yaml"
        (runCommand "sops" 30000 "" ⟨none, false⟩).result).errorSurfaced =
      some (createError .Timeout "Operation timed out after 30000ms"
        none none) ∧
    (openEditInPlace ⟨[]⟩ [] "/tmp" "/w/secrets.yaml"
        (runCommand "sops" 30000 "" ⟨none, false⟩).result).tempCreated = none ∧
    (openEditInPlace ⟨[]⟩ [] "/tmp" "/w/secrets.yaml"
        (runCommand "sops" 30000 "" ⟨none, false⟩).result).st =
      ⟨[]⟩ ∧
    (openEditInPlace ⟨[]⟩ [] "/tmp" "/w/secrets.yaml"
        (runCommand "sops" 30000 "" ⟨none, false⟩).result).fs = [] := by
  decide

end Sopsie
